import Mathlib

/-!
Shallow embedding of the GenOCR request-tracking core (src/app/state.py,
src/app/views.py, src/app/api.py, src/app/pipeline/utils.py).

Python dicts preserve insertion order and assignment on an existing key
updates the value in place, keeping its position; they are modelled as
association lists with an order-preserving insert.  `time.time()` is
modelled by an explicit `now : Nat` argument threaded through every
operation that reads the clock.  Operations that raise `KeyError` in
Python (`self._records[request_id]`, `record.files[file_name]`) are
modelled as returning `none`.
-/

set_option autoImplicit false

namespace GenOCR

/-- Order-preserving insert/overwrite for an association list, matching
`d[k] = v` on a Python dict: an existing key keeps its position, a new key
is appended at the end. -/
def dinsert {α : Type} (k : String) (v : α) : List (String × α) → List (String × α)
  | [] => [(k, v)]
  | (k', v') :: rest => if k' = k then (k, v) :: rest else (k', v') :: dinsert k v rest

/-- Lookup in an association list, matching `d.get(k)` on a Python dict. -/
def dget {α : Type} (k : String) : List (String × α) → Option α
  | [] => none
  | (k', v') :: rest => if k' = k then some v' else dget k rest

/-- Remove a key, matching `d.pop(k, None)` on a Python dict. -/
def dremove {α : Type} (k : String) : List (String × α) → List (String × α)
  | [] => []
  | (k', v') :: rest => if k' = k then rest else (k', v') :: dremove k rest

/-- `FileStatus` dataclass from src/app/state.py. Paths are modelled as
strings; timestamps as naturals. -/
structure FileStatus where
  name : String
  display_name : String
  status : String := "pending"
  progress : Nat := 0
  error : Option String := none
  html_path : Option String := none
  json_path : Option String := none
  started_at : Nat := 0
  finished_at : Option Nat := none
  deriving Repr, DecidableEq

/-- `RequestRecord` dataclass from src/app/state.py; `files` is the
insertion-ordered dict from file `name` to `FileStatus`. -/
structure RequestRecord where
  request_id : String
  directory : String
  created_at : Nat := 0
  files : List (String × FileStatus) := []
  deriving Repr, DecidableEq

/-- `RequestRegistry` from src/app/state.py: the dict of records. The
lock serialises operations; state is the dict contents. -/
structure RequestRegistry where
  records : List (String × RequestRecord) := []
  deriving Repr, DecidableEq

namespace RequestRegistry

/-- `RequestRegistry.create_request`: builds a fresh record and stores it
under `request_id` unconditionally (`self._records[request_id] = record`). -/
def create_request (reg : RequestRegistry) (request_id directory : String) (now : Nat) :
    RequestRegistry × RequestRecord :=
  let record : RequestRecord :=
    { request_id := request_id, directory := directory, created_at := now, files := [] }
  ({ records := dinsert request_id record reg.records }, record)

/-- `RequestRegistry.get`. -/
def get (reg : RequestRegistry) (request_id : String) : Option RequestRecord :=
  dget request_id reg.records

/-- `RequestRegistry.add_file`: `self._records[request_id]` raises
`KeyError` when the request is absent (modelled as `none`); otherwise
`record.files[status.name] = status`. -/
def add_file (reg : RequestRegistry) (request_id : String) (status : FileStatus) :
    Option RequestRegistry :=
  match dget request_id reg.records with
  | none => none
  | some record =>
      some { records := dinsert request_id
               { record with files := dinsert status.name status record.files } reg.records }

/-- `RequestRegistry.list_files`: empty list when the request is absent. -/
def list_files (reg : RequestRegistry) (request_id : String) : List FileStatus :=
  match dget request_id reg.records with
  | none => []
  | some record => record.files.map (fun p => p.2)

end RequestRegistry

/-- The keyword arguments of `RequestRegistry.update`, each defaulting to
`None`. -/
structure UpdateFields where
  status : Option String := none
  progress : Option Nat := none
  error : Option String := none
  html_path : Option String := none
  json_path : Option String := none
  deriving Repr, DecidableEq

/-- The field-by-field mutation performed by `RequestRegistry.update` on an
entry: each provided field overwrites the entry's field, and
`finished_at` is stamped with the current time exactly when the *provided*
`status` argument is `"finished"` or `"error"`. -/
def applyUpdate (entry : FileStatus) (u : UpdateFields) (now : Nat) : FileStatus :=
  let entry := match u.status with | some s => { entry with status := s } | none => entry
  let entry := match u.progress with | some p => { entry with progress := p } | none => entry
  let entry := match u.error with | some e => { entry with error := some e } | none => entry
  let entry := match u.html_path with | some p => { entry with html_path := some p } | none => entry
  let entry := match u.json_path with | some p => { entry with json_path := some p } | none => entry
  if u.status = some "finished" ∨ u.status = some "error" then
    { entry with finished_at := some now }
  else entry

namespace RequestRegistry

/-- `RequestRegistry.update`: `KeyError` (modelled `none`) when the request
or file is absent; otherwise applies `applyUpdate` to the entry. -/
def update (reg : RequestRegistry) (request_id file_name : String) (u : UpdateFields)
    (now : Nat) : Option RequestRegistry :=
  match dget request_id reg.records with
  | none => none
  | some record =>
      match dget file_name record.files with
      | none => none
      | some entry =>
          some { records := dinsert request_id
                   { record with files := dinsert file_name (applyUpdate entry u now) record.files }
                   reg.records }

/-- `RequestRegistry.mark_error` = `update(status="error", progress=100,
error=message)`. -/
def mark_error (reg : RequestRegistry) (request_id file_name message : String) (now : Nat) :
    Option RequestRegistry :=
  reg.update request_id file_name
    { status := some "error", progress := some 100, error := some message } now

/-- `RequestRegistry.cancel`: silent no-op when the request or file is
absent; otherwise forces `status := "cancelled"`, `progress := 100` and
stamps `finished_at`. -/
def cancel (reg : RequestRegistry) (request_id file_name : String) (now : Nat) :
    RequestRegistry :=
  match dget request_id reg.records with
  | none => reg
  | some record =>
      match dget file_name record.files with
      | none => reg
      | some entry =>
          let entry' : FileStatus :=
            { entry with status := "cancelled", progress := 100, finished_at := some now }
          { records := dinsert request_id
              { record with files := dinsert file_name entry' record.files } reg.records }

/-- `RequestRegistry.cleanup`: `self._records.pop(request_id, None)`. -/
def cleanup (reg : RequestRegistry) (request_id : String) : RequestRegistry :=
  { records := dremove request_id reg.records }

end RequestRegistry

/-- `stage_progress` from src/app/pipeline/utils.py: the five stages in
order; the checkpoint of stage `i` is `int(i * (100 / 4))`, which is exact
float arithmetic on these values, so natural division `i * 100 / 4` agrees;
an unknown stage maps to 0 (`mapping.get(stage, 0)`). -/
def stage_progress (stage : String) : Nat :=
  let stages : List String := ["received", "decide", "ocr", "extract", "render"]
  let n := stages.length - 1
  let mapping := (List.range stages.length).zip stages |>.map
    (fun p => (p.2, p.1 * 100 / n))
  (dget stage mapping).getD 0

/-- Index of the last dot in a character list, counting from `i`. -/
def lastDotFrom : Nat → List Char → Option Nat
  | _, [] => none
  | i, c :: rest =>
      match lastDotFrom (i + 1) rest with
      | some j => some j
      | none => if c = '.' then some i else none

/-- CPython `PurePath.suffix` of the final path component: the substring
from the last dot, unless the dot is the first character of the component
or there is none. -/
def suffixOfName (chars : List Char) : List Char :=
  match lastDotFrom 0 chars with
  | some i => if 0 < i ∧ i < chars.length - 1 then chars.drop i else []
  | none => []

/-- `Path(filename).suffix` on the whole filename string: the suffix of the
component after the last slash. -/
def path_suffix (filename : String) : String :=
  let afterSlash := (filename.data.reverse.takeWhile (fun c => c ≠ '/')).reverse
  String.mk (suffixOfName afterSlash)

/-- `hashed_filename` from src/app/pipeline/utils.py:
`sha256(filename).hexdigest() + Path(filename).suffix.lower()`.  The sha256
hex digest (external `hashlib`) is a parameter: the embedding only fixes
that the digest is a function of the filename text alone. -/
def hashed_filename (sha256hex : String → String) (filename : String) : String :=
  sha256hex filename ++ (path_suffix filename).toLower

/-- Outcome of one file's `run_pipeline` call plus the subsequent artifact
writes in `process_queue` (src/app/views.py lines 68-79): either every step
succeeds, or an exception with message `msg` is raised by the pipeline
call, by the html write, or by the json write.  Each write failure occurs
after the registry updates preceding that write. -/
inductive PipelineOutcome where
  | ok
  | failPipeline (msg : String)
  | failHtmlWrite (msg : String)
  | failJsonWrite (msg : String)
  deriving Repr, DecidableEq

/-- A primitive registry write, as emitted by the orchestration task or by
the cancel endpoint. -/
inductive RegOp where
  | upd (request_id file_name : String) (u : UpdateFields)
  | markError (request_id file_name msg : String)
  | cancelOp (request_id file_name : String)
  deriving Repr, DecidableEq

/-- Apply one write at time `now`; `none` models an uncaught `KeyError`
(the `except` handler's own `mark_error` raises the same `KeyError`, so the
background task dies). -/
def applyOp (reg : RequestRegistry) (op : RegOp) (now : Nat) : Option RequestRegistry :=
  match op with
  | .upd rid fn u => reg.update rid fn u now
  | .markError rid fn msg => reg.mark_error rid fn msg now
  | .cancelOp rid fn => some (reg.cancel rid fn now)

/-- Run a list of writes, with the clock advancing by one per write.
Returns the final registry (`none` on crash), the registry state observed
after each successful write, and the clock. -/
def runOps (reg : RequestRegistry) (ops : List RegOp) (now : Nat) :
    Option RequestRegistry × List RequestRegistry × Nat :=
  match ops with
  | [] => (some reg, [], now)
  | op :: rest =>
      match applyOp reg op now with
      | none => (none, [], now)
      | some reg' =>
          let r := runOps reg' rest (now + 1)
          (r.1, reg' :: r.2.1, r.2.2)

/-- The registry writes of one iteration of the `process_queue` loop body
(src/app/views.py lines 67-91) after the cancellation pre-check passed:
the `processing` update, then — during the single `await` of the pipeline
call — any cancel commands that the event loop interleaves there, then the
writes determined by the outcome.  `wd` is the request's working
directory. -/
def bodyOps (rid fn wd : String) (outcome : PipelineOutcome)
    (cancels : List (String × String)) : List RegOp :=
  let htmlP := wd ++ "/" ++ fn ++ "/tables.html"
  let jsonP := wd ++ "/" ++ fn ++ "/tables.json"
  RegOp.upd rid fn { status := some "processing", progress := some (stage_progress "decide") }
    :: cancels.map (fun c => RegOp.cancelOp c.1 c.2)
    ++ match outcome with
       | .ok =>
           [RegOp.upd rid fn { progress := some (stage_progress "extract") },
            RegOp.upd rid fn { progress := some (stage_progress "render") },
            RegOp.upd rid fn { status := some "finished", progress := some 100,
                               html_path := some htmlP, json_path := some jsonP }]
       | .failPipeline msg => [RegOp.markError rid fn msg]
       | .failHtmlWrite msg =>
           [RegOp.upd rid fn { progress := some (stage_progress "extract") },
            RegOp.markError rid fn msg]
       | .failJsonWrite msg =>
           [RegOp.upd rid fn { progress := some (stage_progress "extract") },
            RegOp.upd rid fn { progress := some (stage_progress "render") },
            RegOp.markError rid fn msg]

/-- One iteration of the `process_queue` loop (src/app/views.py lines
61-91): re-read the file's entry; if it exists and its status is
`"cancelled"`, `continue` with no writes; otherwise run the body writes. -/
def processOne (reg : RequestRegistry) (rid fn wd : String) (outcome : PipelineOutcome)
    (cancels : List (String × String)) (now : Nat) :
    Option RequestRegistry × List RequestRegistry × Nat :=
  let entry := match reg.get rid with
               | none => none
               | some r => dget fn r.files
  match entry with
  | some e =>
      if e.status = "cancelled" then (some reg, [], now)
      else runOps reg (bodyOps rid fn wd outcome cancels) now
  | none => runOps reg (bodyOps rid fn wd outcome cancels) now

/-- The whole `process_queue` loop over `saved_files`: each file carries
its pipeline outcome and the cancel commands interleaved during its
pipeline await.  A crash (`none`) abandons the remaining files. -/
def process_queue (reg : RequestRegistry) (rid wd : String) :
    List (String × PipelineOutcome × List (String × String)) → Nat →
    Option RequestRegistry × List RequestRegistry × Nat
  | [], now => (some reg, [], now)
  | (fn, outcome, cancels) :: rest, now =>
      match processOne reg rid fn wd outcome cancels now with
      | (none, states, now') => (none, states, now')
      | (some reg', states, now') =>
          let r := process_queue reg' rid wd rest now'
          (r.1, states ++ r.2.1, r.2.2)

/-- The per-file part of the `upload` handler (src/app/views.py lines
50-58): derive the hashed name, register the `FileStatus`, and set it to
`queued` at the `received` checkpoint. -/
def uploadOne (reg : RequestRegistry) (rid : String) (sha256hex : String → String)
    (original : String) (now : Nat) : Option (RequestRegistry × String) :=
  let hashed := hashed_filename sha256hex original
  let st : FileStatus := { name := hashed, display_name := original, started_at := now }
  match reg.add_file rid st with
  | none => none
  | some reg1 =>
      match reg1.update rid hashed
          { status := some "queued", progress := some (stage_progress "received") } now with
      | none => none
      | some reg2 => some (reg2, hashed)

/-- The upload loop over the submitted files, collecting `saved_files`'
hashed names. -/
def uploadFiles (reg : RequestRegistry) (rid : String) (sha256hex : String → String) :
    List String → Nat → Option (RequestRegistry × List String)
  | [], _ => some (reg, [])
  | original :: rest, now =>
      match uploadOne reg rid sha256hex original now with
      | none => none
      | some (reg1, hashed) =>
          match uploadFiles reg1 rid sha256hex rest (now + 1) with
          | none => none
          | some (reg2, hs) => some (reg2, hashed :: hs)

/-- One row of the `/api/status` payload. -/
structure StatusEntry where
  name : String
  slug : String
  status : String
  progress : Nat
  error : Option String
  deriving Repr, DecidableEq

/-- The payload row built for one file by the `/api/status` loop. -/
def statusRow (f : FileStatus) : StatusEntry :=
  ⟨f.display_name, f.name, f.status, f.progress, f.error⟩

/-- One iteration of the `/api/status` loop body: append the row and clear
`done` when the status is outside `{finished, error}`. -/
def statusStep (acc : List StatusEntry × Bool) (f : FileStatus) : List StatusEntry × Bool :=
  (acc.1 ++ [statusRow f],
   if f.status = "finished" ∨ f.status = "error" then acc.2 else false)

/-- `status_endpoint` (src/app/api.py lines 66-86): 404 when `list_files`
is empty; otherwise the loop builds the payload and clears `done` on any
file whose status is outside `{finished, error}`. -/
def status_endpoint (reg : RequestRegistry) (rid : String) :
    Except Nat (List StatusEntry × Bool) :=
  let files := reg.list_files rid
  if files.isEmpty then .error 404
  else .ok (files.foldl statusStep ([], true))

/-- `file_slug.rsplit(".", 1)` on a character list: split at the last dot;
`none` when there is no dot (Python then raises `ValueError`). -/
def rsplitLastDot : List Char → Option (List Char × List Char)
  | [] => none
  | c :: rest =>
      match rsplitLastDot rest with
      | some (pre, suf) => some (c :: pre, suf)
      | none => if c = '.' then some ([], rest) else none

/-- `download` (src/app/api.py lines 101-128): 404 for an unknown request,
400 for a slug without a dot, 415 for an extension other than `html`/`json`,
404 for an unknown file, a missing recorded path, or a path absent from
storage (`disk` models on-disk existence); success returns the served
path. -/
def download (reg : RequestRegistry) (disk : String → Bool) (rid file_slug : String) :
    Except Nat String :=
  match reg.get rid with
  | none => .error 404
  | some record =>
      match rsplitLastDot file_slug.data with
      | none => .error 400
      | some (pre, suf) =>
          let slug := String.mk pre
          let ext := String.mk suf
          if ext ≠ "html" ∧ ext ≠ "json" then .error 415
          else
            match dget slug record.files with
            | none => .error 404
            | some st =>
                match (if ext = "html" then st.html_path else st.json_path) with
                | none => .error 404
                | some p => if disk p then .ok p else .error 404

/-- The `/api/cancel` endpoint (src/app/api.py lines 90-99): 404 when the
request or the file slug is unknown, otherwise delegate to
`RequestRegistry.cancel` and acknowledge. -/
def cancel_endpoint (reg : RequestRegistry) (rid file_slug : String) (now : Nat) :
    Except Nat RequestRegistry :=
  match reg.get rid with
  | none => .error 404
  | some record =>
      match dget file_slug record.files with
      | none => .error 404
      | some _ => .ok (reg.cancel rid file_slug now)

/-! ### Association-list lemmas -/

@[simp] theorem dget_dinsert_self {α : Type} (k : String) (v : α) (l : List (String × α)) :
    dget k (dinsert k v l) = some v := by
  induction l with
  | nil => simp [dinsert, dget]
  | cons hd tl ih =>
      by_cases h : hd.1 = k
      · simp [dinsert, dget, h]
      · simp [dinsert, dget, h, ih]

theorem dget_dinsert_ne {α : Type} (k k' : String) (v : α) (l : List (String × α))
    (h : k ≠ k') : dget k (dinsert k' v l) = dget k l := by
  induction l with
  | nil => simp [dinsert, dget, Ne.symm h]
  | cons hd tl ih =>
      obtain ⟨a, b⟩ := hd
      by_cases hh : a = k'
      · subst hh
        simp [dinsert, dget, Ne.symm h]
      · by_cases hk : a = k <;> simp [dinsert, dget, hh, hk, h, ih]

/-! ### Registry operation shapes on existing entries -/

/-- `update` on an existing request and file succeeds and rewrites exactly
that entry with `applyUpdate`. -/
theorem update_some (reg : RequestRegistry) (rid fn : String) (u : UpdateFields) (now : Nat)
    (r : RequestRecord) (e : FileStatus)
    (hr : reg.get rid = some r) (he : dget fn r.files = some e) :
    reg.update rid fn u now =
      some { records := dinsert rid
               { r with files := dinsert fn (applyUpdate e u now) r.files } reg.records } := by
  have hr' : dget rid reg.records = some r := hr
  simp [RequestRegistry.update, hr', he]

/-- `cancel` on an existing request and file rewrites exactly that entry. -/
theorem cancel_some (reg : RequestRegistry) (rid fn : String) (now : Nat)
    (r : RequestRecord) (e : FileStatus)
    (hr : reg.get rid = some r) (he : dget fn r.files = some e) :
    reg.cancel rid fn now =
      { records := dinsert rid { r with files := dinsert fn { e with status := "cancelled", progress := 100, finished_at := some now } r.files } reg.records } := by
  have hr' : dget rid reg.records = some r := hr
  simp [RequestRegistry.cancel, hr', he]

/-! ### C8: stage checkpoints -/

/-- C8: the stage-checkpoint function maps the five stage names to evenly
spaced integers: received=0, decide=25, ocr=50, extract=75, render=100. -/
theorem C8_stage_progress_values :
    stage_progress "received" = 0 ∧ stage_progress "decide" = 25 ∧
    stage_progress "ocr" = 50 ∧ stage_progress "extract" = 75 ∧
    stage_progress "render" = 100 := by decide

/-! ### C3: create_request on an existing id -/

/-- A registry holding one request `"r1"` with one queued file `"f1"`. -/
def regWithR1 : RequestRegistry :=
  { records := [("r1",
      { request_id := "r1", directory := "d1", created_at := 0,
        files := [("f1",
          { name := "f1", display_name := "a.pdf", status := "queued",
            progress := 0, started_at := 0 })] })] }

/-- C3 counterexample: with `"r1"` already present (holding one file),
`create_request "r1"` does not fail — it returns normally and silently
replaces the existing record with a fresh empty one. -/
theorem C3_counterexample :
    (regWithR1.get "r1").map (fun r => r.files.length) = some 1 ∧
    (regWithR1.create_request "r1" "d2" 7).1.get "r1" =
      some { request_id := "r1", directory := "d2", created_at := 7, files := [] } ∧
    (regWithR1.create_request "r1" "d2" 7).2 =
      { request_id := "r1", directory := "d2", created_at := 7, files := [] } := by
  decide

/-- C3 amended: `create_request` performs no existence check: on any
registry it succeeds and unconditionally stores a fresh empty record under
the id, silently replacing any existing RequestRecord. -/
theorem C3_create_request_always_replaces (reg : RequestRegistry) (id dir : String) (now : Nat) :
    (reg.create_request id dir now).1.get id =
      some { request_id := id, directory := dir, created_at := now, files := [] } ∧
    (reg.create_request id dir now).2 =
      { request_id := id, directory := dir, created_at := now, files := [] } :=
  ⟨dget_dinsert_self id _ reg.records, rfl⟩

/-! ### C7: cancel semantics -/

/-- C7: when the request or file is absent, `cancel` returns the registry
unchanged (no exception is modelled: the function is total); when both
exist, the file's entry becomes `cancelled` with progress 100 and
`finished_at` stamped with the current time, all other fields kept. -/
theorem C7_cancel_spec (reg : RequestRegistry) (rid fn : String) (now : Nat) :
    ((reg.get rid).bind (fun r => dget fn r.files) = none → reg.cancel rid fn now = reg) ∧
    (∀ r e, reg.get rid = some r → dget fn r.files = some e →
      ∃ r', (reg.cancel rid fn now).get rid = some r' ∧
        dget fn r'.files =
          some { e with status := "cancelled", progress := 100, finished_at := some now }) := by
  constructor
  · intro h
    unfold RequestRegistry.cancel
    cases hget : dget rid reg.records with
    | none => rfl
    | some r =>
        have hfile : dget fn r.files = none := by
          have h' := h
          rw [show reg.get rid = some r from hget] at h'
          simpa using h'
        simp [hfile]
  · intro r e hr he
    rw [cancel_some reg rid fn now r e hr he]
    refine ⟨_, dget_dinsert_self _ _ _, ?_⟩
    exact dget_dinsert_self _ _ _

/-! ### C2: finished_at stamping -/

/-- The `finished_at` field after `applyUpdate`: stamped with the current
time exactly when the provided `status` argument is `"finished"` or
`"error"`, untouched otherwise. -/
theorem applyUpdate_finished_at (e : FileStatus) (u : UpdateFields) (now : Nat) :
    (applyUpdate e u now).finished_at =
      if u.status = some "finished" ∨ u.status = some "error" then some now
      else e.finished_at := by
  obtain ⟨s, p, er, hp, jp⟩ := u
  cases s <;> cases p <;> cases er <;> cases hp <;> cases jp <;>
    simp only [applyUpdate] <;> split <;> rfl

/-- A registry holding one request `"r1"` whose file `"f1"` is already
terminal: status `finished`, `finished_at = 5`. -/
def regFinished : RequestRegistry :=
  { records := [("r1",
      { request_id := "r1", directory := "d1", created_at := 0,
        files := [("f1",
          { name := "f1", display_name := "a.pdf", status := "finished",
            progress := 100, html_path := some "h", json_path := some "j",
            started_at := 0, finished_at := some 5 })] })] }

/-- C2 counterexample: file `"f1"` first became terminal with
`finished_at = 5`; a later `cancel` (reachable via the `/api/cancel`
endpoint, which never checks the current status) overwrites `finished_at`
to 9, so it is not assigned exactly once by the first terminal write. -/
theorem C2_counterexample :
    ((regFinished.get "r1").bind (fun r => dget "f1" r.files)).map
        (fun e => (e.status, e.finished_at)) = some ("finished", some 5) ∧
    (((regFinished.cancel "r1" "f1" 9).get "r1").bind (fun r => dget "f1" r.files)).map
        (fun e => (e.status, e.finished_at)) = some ("cancelled", some 9) := by
  decide

/-- C2 amended: on an existing file, `update` stamps `finished_at` with
the current time exactly when its `status` argument is `"finished"` or
`"error"` — even when the file is already terminal, overwriting any
earlier stamp — and leaves it unchanged otherwise (in particular an update
carrying `status="cancelled"` does not stamp it); `cancel` always stamps
`finished_at`.  So `finished_at` records the most recent such terminal
write, not the first one. -/
theorem C2_finished_at_rule (reg : RequestRegistry) (rid fn : String) (u : UpdateFields)
    (now : Nat) (r : RequestRecord) (e : FileStatus)
    (hr : reg.get rid = some r) (he : dget fn r.files = some e) :
    (reg.update rid fn u now).map
        (fun reg' => ((reg'.get rid).bind (fun r' => dget fn r'.files)).map
          (fun e' => e'.finished_at)) =
      some (some (if u.status = some "finished" ∨ u.status = some "error" then some now
                  else e.finished_at)) ∧
    (((reg.cancel rid fn now).get rid).bind (fun r' => dget fn r'.files)).map
        (fun e' => e'.finished_at) = some (some now) := by
  constructor
  · rw [update_some reg rid fn u now r e hr he]
    simp [RequestRegistry.get, applyUpdate_finished_at]
  · rw [cancel_some reg rid fn now r e hr he]
    simp [RequestRegistry.get]

/-- C2 amended witness: on `regFinished`, an `update` carrying
`status="error"` at time 9 restamps `finished_at` to 9, and a `cancel` at
time 9 stamps it to 9. -/
theorem C2_finished_at_rule_witness :
    (regFinished.update "r1" "f1" { status := some "error" } 9).map
        (fun reg' => ((reg'.get "r1").bind (fun r' => dget "f1" r'.files)).map
          (fun e' => e'.finished_at)) =
      some (some (if (some "error" : Option String) = some "finished" ∨
                    (some "error" : Option String) = some "error" then some 9
                  else some 5)) ∧
    (((regFinished.cancel "r1" "f1" 9).get "r1").bind (fun r' => dget "f1" r'.files)).map
        (fun e' => e'.finished_at) = some (some 9) :=
  C2_finished_at_rule regFinished "r1" "f1" { status := some "error" } 9
    { request_id := "r1", directory := "d1", created_at := 0,
      files := [("f1",
        { name := "f1", display_name := "a.pdf", status := "finished",
          progress := 100, html_path := some "h", json_path := some "j",
          started_at := 0, finished_at := some 5 })] }
    { name := "f1", display_name := "a.pdf", status := "finished",
      progress := 100, html_path := some "h", json_path := some "j",
      started_at := 0, finished_at := some 5 }
    (by decide) (by decide)

/-- C7 witness: cancelling an unknown request on `regWithR1` leaves the
registry unchanged, and cancelling the existing file `"f1"` of `"r1"`
yields status `cancelled`, progress 100 and `finished_at = 3`. -/
theorem C7_cancel_witness :
    regWithR1.cancel "rX" "f1" 3 = regWithR1 ∧
    ∃ r', (regWithR1.cancel "r1" "f1" 3).get "r1" = some r' ∧
      dget "f1" r'.files =
        some { name := "f1", display_name := "a.pdf", status := "cancelled",
               progress := 100, started_at := 0, finished_at := some 3 } := by
  refine ⟨(C7_cancel_spec regWithR1 "rX" "f1" 3).1 (by decide), ?_⟩
  exact (C7_cancel_spec regWithR1 "r1" "f1" 3).2
    { request_id := "r1", directory := "d1", created_at := 0,
      files := [("f1",
        { name := "f1", display_name := "a.pdf", status := "queued",
          progress := 0, started_at := 0 })] }
    { name := "f1", display_name := "a.pdf", status := "queued",
      progress := 0, started_at := 0 }
    (by decide) (by decide)

/-! ### C9: download slug guards -/

/-- `rsplit(".", 1)` finds no split exactly when the string has no dot. -/
theorem rsplitLastDot_eq_none (l : List Char) : rsplitLastDot l = none ↔ '.' ∉ l := by
  induction l with
  | nil => simp [rsplitLastDot]
  | cons c rest ih =>
      cases h : rsplitLastDot rest with
      | some p =>
          obtain ⟨p1, p2⟩ := p
          have hdot : '.' ∈ rest := by
            by_contra hn
            rw [← ih] at hn
            rw [h] at hn
            exact Option.noConfusion hn
          simp [rsplitLastDot, h, hdot]
      | none =>
          have hno : '.' ∉ rest := ih.mp h
          by_cases hc : c = '.'
          · simp [rsplitLastDot, h, hc]
          · simp [rsplitLastDot, h, hc, hno]
            exact fun hh => hc hh.symm

/-- C9: on an existing request, `download` answers 400 when the slug path
segment has no dot, and 415 when the extension after the last dot is
neither `html` nor `json` — in both cases before any file lookup, so for
every state of the request's files. -/
theorem C9_download_guards (reg : RequestRegistry) (disk : String → Bool)
    (rid slug : String) (r : RequestRecord) (hr : reg.get rid = some r) :
    ('.' ∉ slug.data → download reg disk rid slug = .error 400) ∧
    (∀ pre suf, rsplitLastDot slug.data = some (pre, suf) →
      String.mk suf ≠ "html" → String.mk suf ≠ "json" →
      download reg disk rid slug = .error 415) := by
  constructor
  · intro h
    have hsplit : rsplitLastDot slug.data = none := (rsplitLastDot_eq_none _).mpr h
    simp [download, hr, hsplit]
  · intro pre suf hsplit h1 h2
    simp [download, hr, hsplit, h1, h2]

/-- C9 witness: on `regWithR1` (request `"r1"` exists), slug `"nodot"`
yields 400 and slug `"abc.xml"` yields 415. -/
theorem C9_download_witness :
    download regWithR1 (fun _ => true) "r1" "nodot" = .error 400 ∧
    download regWithR1 (fun _ => true) "r1" "abc.xml" = .error 415 := by
  constructor
  · exact (C9_download_guards regWithR1 (fun _ => true) "r1" "nodot"
      { request_id := "r1", directory := "d1", created_at := 0,
        files := [("f1",
          { name := "f1", display_name := "a.pdf", status := "queued",
            progress := 0, started_at := 0 })] } (by decide)).1 (by decide)
  · exact (C9_download_guards regWithR1 (fun _ => true) "r1" "abc.xml"
      { request_id := "r1", directory := "d1", created_at := 0,
        files := [("f1",
          { name := "f1", display_name := "a.pdf", status := "queued",
            progress := 0, started_at := 0 })] } (by decide)).2
      "abc".data "xml".data (by decide) (by decide) (by decide)

/-! ### C5: the done flag -/

/-- The `done` component of the `/api/status` fold is the conjunction of
the incoming flag with "status is finished or error" over all files. -/
theorem statusFold_done (files : List FileStatus) (acc : List StatusEntry) (b : Bool) :
    (files.foldl statusStep (acc, b)).2 =
      (b && files.all (fun f => decide (f.status = "finished" ∨ f.status = "error"))) := by
  induction files generalizing acc b with
  | nil => simp
  | cons f rest ih =>
      simp only [List.foldl_cons, List.all_cons, statusStep]
      rw [ih]
      by_cases hf : f.status = "finished" ∨ f.status = "error" <;> simp [hf]

/-- C5: whenever the status query answers, its `done` flag is true iff
every file of the request has status `finished` or `error`; in particular
a `cancelled` file forces `done = false`. -/
theorem C5_done_iff (reg : RequestRegistry) (rid : String) (payload : List StatusEntry)
    (done : Bool) (h : status_endpoint reg rid = .ok (payload, done)) :
    (done = true ↔ ∀ f ∈ reg.list_files rid, f.status = "finished" ∨ f.status = "error") ∧
    ((∃ f ∈ reg.list_files rid, f.status = "cancelled") → done = false) := by
  have hdone : done =
      (reg.list_files rid).all (fun f => decide (f.status = "finished" ∨ f.status = "error")) := by
    unfold status_endpoint at h
    by_cases he : (reg.list_files rid).isEmpty
    · rw [if_pos he] at h
      exact absurd h (by simp)
    · rw [if_neg he] at h
      rw [Except.ok.injEq] at h
      have h2 := congrArg Prod.snd h
      rw [statusFold_done] at h2
      simpa using h2.symm
  constructor
  · rw [hdone]
    simp [List.all_eq_true]
  · rintro ⟨f, hmem, hcan⟩
    rw [hdone, List.all_eq_false]
    refine ⟨f, hmem, ?_⟩
    rw [hcan]
    decide


/-- A registry with one request `"r1"` holding a finished file and a
cancelled file: every file is terminal yet one is `cancelled`. -/
def regCancelled : RequestRegistry :=
  { records := [("r1",
      { request_id := "r1", directory := "d1", created_at := 0,
        files := [("f1",
          { name := "f1", display_name := "a.pdf", status := "finished",
            progress := 100, started_at := 0, finished_at := some 3 }),
         ("f2",
          { name := "f2", display_name := "b.pdf", status := "cancelled",
            progress := 100, started_at := 0, finished_at := some 4 })] })] }

/-- C5 witness: on `regCancelled` the status query answers with
`done = false`, and the claim's biconditional holds there concretely. -/
theorem C5_done_iff_witness :
    ((false = true) ↔ ∀ f ∈ regCancelled.list_files "r1",
        f.status = "finished" ∨ f.status = "error") ∧
    ((∃ f ∈ regCancelled.list_files "r1", f.status = "cancelled") → false = false) :=
  C5_done_iff regCancelled "r1"
    [{ name := "a.pdf", slug := "f1", status := "finished", progress := 100, error := none },
     { name := "b.pdf", slug := "f2", status := "cancelled", progress := 100, error := none }]
    false (by rfl)

/-! ### C10: duplicate filenames collapse to one entry -/

/-- The `received` checkpoint is 0. -/
theorem stage_progress_received : stage_progress "received" = 0 := by decide

/-- C10: the derived file key is a function of the client filename alone
(`sha256(filename) + suffix`), so two files uploaded with equal filenames
in one request get the identical key; the second `add_file` overwrites the
first entry and the request tracks a single `FileStatus` — the second
upload's (its `started_at` is the second iteration's clock). -/
theorem C10_duplicate_filenames (sha256hex : String → String) (orig rid wd : String) (now : Nat) :
    (uploadFiles ((RequestRegistry.mk []).create_request rid wd now).1 rid sha256hex
        [orig, orig] now).map (fun p => p.2) =
      some [hashed_filename sha256hex orig, hashed_filename sha256hex orig] ∧
    ((uploadFiles ((RequestRegistry.mk []).create_request rid wd now).1 rid sha256hex
        [orig, orig] now).bind (fun p => p.1.get rid)).map (fun r => r.files.map Prod.fst) =
      some [hashed_filename sha256hex orig] ∧
    ((uploadFiles ((RequestRegistry.mk []).create_request rid wd now).1 rid sha256hex
        [orig, orig] now).bind (fun p => p.1.get rid)).bind
        (fun r => dget (hashed_filename sha256hex orig) r.files) =
      some { name := hashed_filename sha256hex orig, display_name := orig,
             status := "queued", progress := 0, started_at := now + 1 } := by
  simp [uploadFiles, uploadOne, RequestRegistry.create_request, RequestRegistry.add_file,
        RequestRegistry.update, RequestRegistry.get, dinsert, dget, applyUpdate,
        stage_progress_received]


/-! ### Trace machinery for the orchestration claims -/

/-- The (request, file) a write targets. -/
def RegOp.target : RegOp → String × String
  | .upd rid fn _ => (rid, fn)
  | .markError rid fn _ => (rid, fn)
  | .cancelOp rid fn => (rid, fn)

/-- Effect of one write on the targeted entry. -/
def opUpdate (e : FileStatus) (op : RegOp) (now : Nat) : FileStatus :=
  match op with
  | .upd _ _ u => applyUpdate e u now
  | .markError _ _ msg =>
      applyUpdate e { status := some "error", progress := some 100, error := some msg } now
  | .cancelOp _ _ => { e with status := "cancelled", progress := 100, finished_at := some now }

/-- The targeted entry after a sequence of writes starting at time `now`. -/
def entryAfter (e : FileStatus) (now : Nat) : List RegOp → FileStatus
  | [] => e
  | op :: rest => entryAfter (opUpdate e op now) (now + 1) rest

/-- The successive values of the targeted entry along a sequence of
writes. -/
def entryTrace (e : FileStatus) (now : Nat) : List RegOp → List FileStatus
  | [] => []
  | op :: rest => opUpdate e op now :: entryTrace (opUpdate e op now) (now + 1) rest

/-- The (status, progress) pair of one file as an observer (the status
endpoint) would read it in a registry state. -/
def fileObs (rid fn : String) (s : RequestRegistry) : Option (String × Nat) :=
  ((s.get rid).bind (fun r => dget fn r.files)).map (fun e => (e.status, e.progress))

/-- The registry with request `rid`'s record replaced by `r` carrying
entry `e` under `fn`. -/
def withEntry (reg : RequestRegistry) (rid : String) (r : RequestRecord) (fn : String)
    (e : FileStatus) : RequestRegistry :=
  { records := dinsert rid { r with files := dinsert fn e r.files } reg.records }

theorem withEntry_get_self (reg : RequestRegistry) (rid : String) (r : RequestRecord)
    (fn : String) (e : FileStatus) :
    (withEntry reg rid r fn e).get rid = some { r with files := dinsert fn e r.files } :=
  dget_dinsert_self rid _ reg.records

theorem applyOp_target (reg : RequestRegistry) (op : RegOp) (now : Nat) (rid fn : String)
    (r : RequestRecord) (e : FileStatus) (ht : op.target = (rid, fn))
    (hr : reg.get rid = some r) (he : dget fn r.files = some e) :
    applyOp reg op now = some (withEntry reg rid r fn (opUpdate e op now)) := by
  cases op with
  | upd a b u =>
      obtain ⟨rfl, rfl⟩ : a = rid ∧ b = fn := by
        simpa [RegOp.target, Prod.ext_iff] using ht
      rw [applyOp, update_some reg a b u now r e hr he]
      rfl
  | markError a b msg =>
      obtain ⟨rfl, rfl⟩ : a = rid ∧ b = fn := by
        simpa [RegOp.target, Prod.ext_iff] using ht
      rw [applyOp, RequestRegistry.mark_error, update_some reg a b _ now r e hr he]
      rfl
  | cancelOp a b =>
      obtain ⟨rfl, rfl⟩ : a = rid ∧ b = fn := by
        simpa [RegOp.target, Prod.ext_iff] using ht
      rw [applyOp, cancel_some reg a b now r e hr he]
      rfl

/-- Running a sequence of writes that all target the same existing file:
no write fails, the clock advances by one per write, the targeted entry
ends at `entryAfter`, every other file and request is untouched, and an
observer sees exactly the `entryTrace` values. -/
theorem runOps_single_file (rid fn : String) (ops : List RegOp)
    (hops : ∀ op ∈ ops, op.target = (rid, fn)) :
    ∀ (reg : RequestRegistry) (now : Nat) (r : RequestRecord) (e : FileStatus),
    reg.get rid = some r → dget fn r.files = some e →
    ∃ regF rF,
      (runOps reg ops now).1 = some regF ∧
      (runOps reg ops now).2.2 = now + ops.length ∧
      regF.get rid = some rF ∧
      dget fn rF.files = some (entryAfter e now ops) ∧
      (∀ fn', fn' ≠ fn → dget fn' rF.files = dget fn' r.files) ∧
      (∀ rid', rid' ≠ rid → regF.get rid' = reg.get rid') ∧
      (runOps reg ops now).2.1.map (fileObs rid fn) =
        (entryTrace e now ops).map (fun e' => some (e'.status, e'.progress)) := by
  induction ops with
  | nil =>
      intro reg now r e hr he
      exact ⟨reg, r, rfl, by simp [runOps], hr, he, fun _ _ => rfl, fun _ _ => rfl, by
        simp [runOps, entryTrace]⟩
  | cons op rest ih =>
      intro reg now r e hr he
      have ht := hops op (List.mem_cons_self op rest)
      have hstep := applyOp_target reg op now rid fn r e ht hr he
      have hr' : (withEntry reg rid r fn (opUpdate e op now)).get rid =
          some { r with files := dinsert fn (opUpdate e op now) r.files } :=
        withEntry_get_self reg rid r fn (opUpdate e op now)
      have he' : dget fn ({ r with files := dinsert fn (opUpdate e op now) r.files}).files =
          some (opUpdate e op now) := dget_dinsert_self fn _ r.files
      obtain ⟨regF, rF, h1, h2, h3, h4, h5, h6, h7⟩ :=
        ih (fun o ho => hops o (List.mem_cons_of_mem op ho))
          (withEntry reg rid r fn (opUpdate e op now)) (now + 1)
          { r with files := dinsert fn (opUpdate e op now) r.files } (opUpdate e op now)
          hr' he'
      refine ⟨regF, rF, ?_, ?_, h3, ?_, ?_, ?_, ?_⟩
      · simp only [runOps, hstep]
        exact h1
      · simp only [runOps, hstep]
        rw [h2]
        simp [List.length_cons]
        omega
      · rw [h4]
        rfl
      · intro fn' hfn
        rw [h5 fn' hfn]
        simp only
        exact dget_dinsert_ne fn' fn (opUpdate e op now) r.files hfn
      · intro rid' hrid
        rw [h6 rid' hrid]
        exact dget_dinsert_ne rid' rid _ reg.records hrid
      · simp only [runOps, hstep]
        simp only [List.map_cons, h7, entryTrace]
        congr 1
        simp [fileObs, hr', he']


/-! ### Checkpoint value helpers -/

theorem stage_progress_decide_val : stage_progress "decide" = 25 := by decide

theorem stage_progress_extract_val : stage_progress "extract" = 75 := by decide

theorem stage_progress_render_val : stage_progress "render" = 100 := by decide

/-- Every write of a no-cancel loop body targets the processed file. -/
theorem bodyOps_targets (rid fn wd : String) (outcome : PipelineOutcome) :
    ∀ op ∈ bodyOps rid fn wd outcome [], op.target = (rid, fn) := by
  intro op hop
  cases outcome with
  | ok =>
      simp [bodyOps] at hop
      rcases hop with rfl | rfl | rfl | rfl <;> rfl
  | failPipeline msg =>
      simp [bodyOps] at hop
      rcases hop with rfl | rfl <;> rfl
  | failHtmlWrite msg =>
      simp [bodyOps] at hop
      rcases hop with rfl | rfl | rfl <;> rfl
  | failJsonWrite msg =>
      simp [bodyOps] at hop
      rcases hop with rfl | rfl | rfl | rfl <;> rfl

/-- Final (status, progress) of a file whose body ran with outcome `ok`. -/
theorem entryAfter_bodyOps_ok (rid fn wd : String) (e : FileStatus) (now : Nat) :
    ((entryAfter e now (bodyOps rid fn wd .ok [])).status,
     (entryAfter e now (bodyOps rid fn wd .ok [])).progress) = ("finished", 100) := by
  simp [bodyOps, entryAfter, opUpdate, applyUpdate, stage_progress_decide_val,
        stage_progress_extract_val, stage_progress_render_val]

/-- Final (status, progress, error) of a file whose body failed with
message `msg` at any of the three failure points. -/
theorem entryAfter_bodyOps_fail (rid fn wd msg : String) (e : FileStatus) (now : Nat)
    (outcome : PipelineOutcome)
    (h : outcome = .failPipeline msg ∨ outcome = .failHtmlWrite msg ∨
         outcome = .failJsonWrite msg) :
    ((entryAfter e now (bodyOps rid fn wd outcome [])).status,
     (entryAfter e now (bodyOps rid fn wd outcome [])).progress,
     (entryAfter e now (bodyOps rid fn wd outcome [])).error) = ("error", 100, some msg) := by
  rcases h with rfl | rfl | rfl <;>
    simp [bodyOps, entryAfter, opUpdate, applyUpdate, stage_progress_decide_val,
          stage_progress_extract_val, stage_progress_render_val]

/-- The (status, progress) values an observer sees along a no-cancel body
with a successful pipeline. -/
theorem entryTrace_obs_ok (rid fn wd : String) (e : FileStatus) (now : Nat) :
    (entryTrace e now (bodyOps rid fn wd .ok [])).map (fun e' => (e'.status, e'.progress)) =
      [("processing", 25), ("processing", 75), ("processing", 100), ("finished", 100)] := by
  simp [bodyOps, entryTrace, opUpdate, applyUpdate, stage_progress_decide_val,
        stage_progress_extract_val, stage_progress_render_val]

/-- Observed values when the pipeline call raises. -/
theorem entryTrace_obs_failPipeline (rid fn wd msg : String) (e : FileStatus) (now : Nat) :
    (entryTrace e now (bodyOps rid fn wd (.failPipeline msg) [])).map
      (fun e' => (e'.status, e'.progress)) = [("processing", 25), ("error", 100)] := by
  simp [bodyOps, entryTrace, opUpdate, applyUpdate, stage_progress_decide_val,
        stage_progress_extract_val, stage_progress_render_val]

/-- Observed values when the html write raises. -/
theorem entryTrace_obs_failHtmlWrite (rid fn wd msg : String) (e : FileStatus) (now : Nat) :
    (entryTrace e now (bodyOps rid fn wd (.failHtmlWrite msg) [])).map
      (fun e' => (e'.status, e'.progress)) =
      [("processing", 25), ("processing", 75), ("error", 100)] := by
  simp [bodyOps, entryTrace, opUpdate, applyUpdate, stage_progress_decide_val,
        stage_progress_extract_val, stage_progress_render_val]

/-- Observed values when the json write raises. -/
theorem entryTrace_obs_failJsonWrite (rid fn wd msg : String) (e : FileStatus) (now : Nat) :
    (entryTrace e now (bodyOps rid fn wd (.failJsonWrite msg) [])).map
      (fun e' => (e'.status, e'.progress)) =
      [("processing", 25), ("processing", 75), ("processing", 100), ("error", 100)] := by
  simp [bodyOps, entryTrace, opUpdate, applyUpdate, stage_progress_decide_val,
        stage_progress_extract_val, stage_progress_render_val]

/-- With no interleaved cancel and a not-yet-cancelled entry, the loop
iteration is exactly its body's writes. -/
theorem processOne_noCancel (reg : RequestRegistry) (rid fn wd : String)
    (outcome : PipelineOutcome) (now : Nat) (r : RequestRecord) (e : FileStatus)
    (hr : reg.get rid = some r) (he : dget fn r.files = some e)
    (hs : e.status ≠ "cancelled") :
    processOne reg rid fn wd outcome [] now = runOps reg (bodyOps rid fn wd outcome []) now := by
  simp [processOne, hr, he, hs]

/-! ### C4: progress monotonicity -/

/-- The upload leaves file `"f1"` of request `"r1"` queued at progress 0. -/
def fileQueued : FileStatus :=
  { name := "f1", display_name := "a.pdf", status := "queued", progress := 0, started_at := 0 }

def recQueued : RequestRecord :=
  { request_id := "r1", directory := "wd", created_at := 0, files := [("f1", fileQueued)] }

def regQueued : RequestRegistry := { records := [("r1", recQueued)] }

/-- The registry states written while processing the queued file when a
cancel for that very file lands during the pipeline await and the pipeline
then succeeds. -/
def cancelRaceStates : List RequestRegistry :=
  (processOne regQueued "r1" "f1" "wd" .ok [("r1", "f1")] 1).2.1

/-- C4 counterexample: with a cancel interleaved during the pipeline call,
the observed (status, progress) sequence for the file is processing/25,
cancelled/100, cancelled/75, cancelled/100, finished/100 — progress drops
from 100 back to 75, and a state with terminal status `cancelled` shows
progress 75 ≠ 100. -/
theorem C4_counterexample :
    (cancelRaceStates.map (fileObs "r1" "f1") =
      [some ("processing", 25), some ("cancelled", 100), some ("cancelled", 75),
       some ("cancelled", 100), some ("finished", 100)]) ∧
    (cancelRaceStates.map (fileObs "r1" "f1"))[1]? = some (some ("cancelled", 100)) ∧
    (cancelRaceStates.map (fileObs "r1" "f1"))[2]? = some (some ("cancelled", 75)) := by
  decide

/-- C4 amended: for the registry writes applied to a file by its own
orchestration iteration with no interleaved cancel, starting from the
uploaded state (progress 0), the observed progress sequence is
non-decreasing and every observed terminal status carries progress 100.
(A cancel interleaved during the pipeline await breaks both, as the
counterexample shows.) -/
theorem C4_progress_monotone_no_cancel (reg : RequestRegistry) (rid fn wd : String)
    (outcome : PipelineOutcome) (now : Nat) (r : RequestRecord) (e : FileStatus)
    (hr : reg.get rid = some r) (he : dget fn r.files = some e) (hp : e.progress = 0) :
    ∃ ps : List (String × Nat),
      ((processOne reg rid fn wd outcome [] now).2.1).map (fileObs rid fn) = ps.map some ∧
      List.Chain' (· ≤ ·) (e.progress :: ps.map Prod.snd) ∧
      ∀ p ∈ ps, (p.1 = "finished" ∨ p.1 = "error" ∨ p.1 = "cancelled") → p.2 = 100 := by
  by_cases hs : e.status = "cancelled"
  · refine ⟨[], ?_, ?_, ?_⟩
    · simp [processOne, hr, he, hs]
    · simp
    · simp
  · rw [processOne_noCancel reg rid fn wd outcome now r e hr he hs]
    obtain ⟨regF, rF, h1, h2, h3, h4, h5, h6, h7⟩ :=
      runOps_single_file rid fn _ (bodyOps_targets rid fn wd outcome) reg now r e hr he
    refine ⟨(entryTrace e now (bodyOps rid fn wd outcome [])).map
        (fun e' => (e'.status, e'.progress)), ?_, ?_, ?_⟩
    · rw [h7]
      simp [List.map_map, Function.comp]
    · rw [hp]
      cases outcome with
      | ok => rw [entryTrace_obs_ok]; norm_num [List.chain'_cons]
      | failPipeline msg => rw [entryTrace_obs_failPipeline]; norm_num [List.chain'_cons]
      | failHtmlWrite msg => rw [entryTrace_obs_failHtmlWrite]; norm_num [List.chain'_cons]
      | failJsonWrite msg => rw [entryTrace_obs_failJsonWrite]; norm_num [List.chain'_cons]
    · cases outcome with
      | ok => rw [entryTrace_obs_ok]; decide
      | failPipeline msg => rw [entryTrace_obs_failPipeline]; decide
      | failHtmlWrite msg => rw [entryTrace_obs_failHtmlWrite]; decide
      | failJsonWrite msg => rw [entryTrace_obs_failJsonWrite]; decide

/-- C4 amended witness: processing the queued file of `regQueued` with a
successful pipeline and no cancels gives observations whose progress
sequence is non-decreasing from 0 with terminal states at 100. -/
theorem C4_progress_monotone_witness :
    ∃ ps : List (String × Nat),
      ((processOne regQueued "r1" "f1" "wd" .ok [] 1).2.1).map (fileObs "r1" "f1") =
        ps.map some ∧
      List.Chain' (· ≤ ·) ((0 : Nat) :: ps.map Prod.snd) ∧
      ∀ p ∈ ps, (p.1 = "finished" ∨ p.1 = "error" ∨ p.1 = "cancelled") → p.2 = 100 :=
  C4_progress_monotone_no_cancel regQueued "r1" "f1" "wd" .ok 1 recQueued fileQueued
    (by decide) (by decide) (by decide)

/-! ### C1: cancellation stickiness -/

/-- C1 counterexample: the same cancel-race trace observes the file as
`cancelled` (second state) and later as `finished` (final state): the
late pipeline result is not discarded but overwrites the cancellation. -/
theorem C1_counterexample :
    ((cancelRaceStates.map (fileObs "r1" "f1")).map (Option.map Prod.fst) =
      [some "processing", some "cancelled", some "cancelled", some "cancelled",
       some "finished"]) ∧
    ((processOne regQueued "r1" "f1" "wd" .ok [("r1", "f1")] 1).1.bind
        (fileObs "r1" "f1")).map Prod.fst = some "finished" := by
  decide

/-- C1 amended: a cancellation is honoured only at the pre-check: when the
file's status already reads `cancelled` as the orchestration task reaches
it, the file is skipped — no pipeline invocation and no further registry
writes, the registry is returned unchanged.  A cancellation landing after
the `processing` update is never re-checked, and the late pipeline
result's writes overwrite the `cancelled` status (counterexample above). -/
theorem C1_precheck_skip (reg : RequestRegistry) (rid fn wd : String)
    (outcome : PipelineOutcome) (cancels : List (String × String)) (now : Nat)
    (r : RequestRecord) (e : FileStatus) (hr : reg.get rid = some r)
    (he : dget fn r.files = some e) (hc : e.status = "cancelled") :
    processOne reg rid fn wd outcome cancels now = (some reg, [], now) := by
  simp [processOne, hr, he, hc]

/-- C1 amended witness: file `"f2"` of `regCancelled` is already
cancelled, so its iteration performs no writes at all. -/
theorem C1_precheck_skip_witness :
    processOne regCancelled "r1" "f2" "wd" .ok [] 7 = (some regCancelled, [], 7) :=
  C1_precheck_skip regCancelled "r1" "f2" "wd" .ok [] 7
    { request_id := "r1", directory := "d1", created_at := 0,
      files := [("f1",
        { name := "f1", display_name := "a.pdf", status := "finished",
          progress := 100, started_at := 0, finished_at := some 3 }),
       ("f2",
        { name := "f2", display_name := "b.pdf", status := "cancelled",
          progress := 100, started_at := 0, finished_at := some 4 })] }
    { name := "f2", display_name := "b.pdf", status := "cancelled",
      progress := 100, started_at := 0, finished_at := some 4 }
    (by decide) (by decide) (by decide)


/-! ### C6: per-file failure isolation -/

/-- Running the whole no-cancel loop over distinct files that all exist
and are not cancelled: the task never crashes, every `ok` file ends
`finished`/100, every failing file ends `error`/100 carrying its message,
files outside the list and other requests are untouched. -/
theorem process_queue_noCancel (rid wd : String) (files : List (String × PipelineOutcome)) :
    ∀ (reg : RequestRegistry) (now : Nat) (r : RequestRecord),
    reg.get rid = some r →
    (files.map Prod.fst).Nodup →
    (∀ fo ∈ files, ∃ e, dget fo.1 r.files = some e ∧ e.status ≠ "cancelled") →
    ∃ regF rF,
      (process_queue reg rid wd (files.map (fun fo => (fo.1, fo.2, []))) now).1 = some regF ∧
      regF.get rid = some rF ∧
      (∀ fn', fn' ∉ files.map Prod.fst → dget fn' rF.files = dget fn' r.files) ∧
      (∀ rid', rid' ≠ rid → regF.get rid' = reg.get rid') ∧
      (∀ fo ∈ files,
        (fo.2 = .ok →
          (dget fo.1 rF.files).map (fun e => (e.status, e.progress)) = some ("finished", 100)) ∧
        (∀ msg, (fo.2 = .failPipeline msg ∨ fo.2 = .failHtmlWrite msg ∨
                 fo.2 = .failJsonWrite msg) →
          (dget fo.1 rF.files).map (fun e => (e.status, e.progress, e.error)) =
            some ("error", 100, some msg))) := by
  induction files with
  | nil =>
      intro reg now r hr _ _
      refine ⟨reg, r, ?_, hr, fun _ _ => rfl, fun _ _ => rfl, ?_⟩
      · simp [process_queue]
      · intro fo hfo
        cases hfo
  | cons fo rest ih =>
      intro reg now r hr hnd hex
      obtain ⟨fn, outcome⟩ := fo
      obtain ⟨e, he, hs⟩ := hex (fn, outcome) (List.mem_cons_self _ _)
      obtain ⟨regF1, rF1, h1, h2, h3, h4, h5, h6, h7⟩ :=
        runOps_single_file rid fn _ (bodyOps_targets rid fn wd outcome) reg now r e hr he
      have hnd' : (rest.map Prod.fst).Nodup := (List.nodup_cons.mp hnd).2
      have hfn_not : fn ∉ rest.map Prod.fst := (List.nodup_cons.mp hnd).1
      have hex' : ∀ fo' ∈ rest, ∃ e', dget fo'.1 rF1.files = some e' ∧ e'.status ≠ "cancelled" := by
        intro fo' hfo'
        obtain ⟨e', he', hs'⟩ := hex fo' (List.mem_cons_of_mem _ hfo')
        have hne : fo'.1 ≠ fn := by
          intro hcontra
          exact hfn_not (hcontra ▸ List.mem_map_of_mem Prod.fst hfo')
        exact ⟨e', (h5 fo'.1 hne).trans he', hs'⟩
      obtain ⟨regF, rF, g1, g2, g3, g4, g5⟩ :=
        ih regF1 ((runOps reg (bodyOps rid fn wd outcome []) now).2.2) rF1 h3 hnd' hex'
      have hsplit : runOps reg (bodyOps rid fn wd outcome []) now =
          (some regF1, (runOps reg (bodyOps rid fn wd outcome []) now).2.1,
           (runOps reg (bodyOps rid fn wd outcome []) now).2.2) := by
        rw [← h1]
      have hfn_final : dget fn rF.files = some (entryAfter e now (bodyOps rid fn wd outcome [])) :=
        (g3 fn hfn_not).trans h4
      refine ⟨regF, rF, ?_, g2, ?_, ?_, ?_⟩
      · simp only [List.map_cons, process_queue,
          processOne_noCancel reg rid fn wd outcome now r e hr he hs]
        rw [hsplit]
        exact g1
      · intro fn' hfn'
        have hn1 : fn' ∉ rest.map Prod.fst := fun hmem =>
          hfn' (List.mem_cons_of_mem _ hmem)
        have hn2 : fn' ≠ fn := fun hcontra => hfn' (by simp [hcontra])
        exact (g3 fn' hn1).trans (h5 fn' hn2)
      · intro rid' hrid
        exact (g4 rid' hrid).trans (h6 rid' hrid)
      · intro fo' hfo'
        rcases List.mem_cons.mp hfo' with heq | hmem
        · rw [heq]
          constructor
          · intro hok
            have hok' : outcome = PipelineOutcome.ok := hok
            subst hok'
            rw [hfn_final]
            exact congrArg some (entryAfter_bodyOps_ok rid fn wd e now)
          · intro msg hmsg
            rw [hfn_final]
            exact congrArg some (entryAfter_bodyOps_fail rid fn wd msg e now outcome hmsg)
        · exact g5 fo' hmem

/-- C6: with one orchestration task driving a request whose files all
exist and are not cancelled, any exception raised by the pipeline call or
an artifact write for one file is recorded by `mark_error` as
status=`error` with that failure's message, the loop continues, the
background task never crashes (returns a final registry), and sibling
files with successful outcomes still reach `finished`. -/
theorem C6_failure_isolated (reg : RequestRegistry) (rid wd : String)
    (files : List (String × PipelineOutcome)) (now : Nat) (r : RequestRecord)
    (hr : reg.get rid = some r)
    (hnd : (files.map Prod.fst).Nodup)
    (hex : ∀ fo ∈ files, ∃ e, dget fo.1 r.files = some e ∧ e.status ≠ "cancelled") :
    ∃ regF rF,
      (process_queue reg rid wd (files.map (fun fo => (fo.1, fo.2, []))) now).1 = some regF ∧
      regF.get rid = some rF ∧
      ∀ fo ∈ files,
        (fo.2 = .ok →
          (dget fo.1 rF.files).map (fun e => (e.status, e.progress)) = some ("finished", 100)) ∧
        (∀ msg, (fo.2 = .failPipeline msg ∨ fo.2 = .failHtmlWrite msg ∨
                 fo.2 = .failJsonWrite msg) →
          (dget fo.1 rF.files).map (fun e => (e.status, e.progress, e.error)) =
            some ("error", 100, some msg)) := by
  obtain ⟨regF, rF, h1, h2, _, _, h5⟩ := process_queue_noCancel rid wd files reg now r hr hnd hex
  exact ⟨regF, rF, h1, h2, h5⟩

/-- A request with two queued files, the first of which will fail. -/
def recTwo : RequestRecord :=
  { request_id := "r1", directory := "wd", created_at := 0,
    files := [("f1",
      { name := "f1", display_name := "a.pdf", status := "queued",
        progress := 0, started_at := 0 }),
     ("f2",
      { name := "f2", display_name := "b.pdf", status := "queued",
        progress := 0, started_at := 0 })] }

def regTwo : RequestRegistry := { records := [("r1", recTwo)] }

/-- C6 witness: in a two-file request where the first file's pipeline
raises "boom" and the second succeeds, the task finishes, `"f1"` ends as
error/100 with message "boom" and its sibling `"f2"` ends finished/100. -/
theorem C6_failure_isolated_witness :
    ∃ regF rF,
      (process_queue regTwo "r1" "wd"
        ([("f1", PipelineOutcome.failPipeline "boom"), ("f2", PipelineOutcome.ok)].map
          (fun fo => (fo.1, fo.2, []))) 1).1 = some regF ∧
      regF.get "r1" = some rF ∧
      ∀ fo ∈ [("f1", PipelineOutcome.failPipeline "boom"), ("f2", PipelineOutcome.ok)],
        (fo.2 = .ok →
          (dget fo.1 rF.files).map (fun e => (e.status, e.progress)) = some ("finished", 100)) ∧
        (∀ msg, (fo.2 = .failPipeline msg ∨ fo.2 = .failHtmlWrite msg ∨
                 fo.2 = .failJsonWrite msg) →
          (dget fo.1 rF.files).map (fun e => (e.status, e.progress, e.error)) =
            some ("error", 100, some msg)) :=
  C6_failure_isolated regTwo "r1" "wd"
    [("f1", PipelineOutcome.failPipeline "boom"), ("f2", PipelineOutcome.ok)] 1 recTwo
    (by decide) (by decide)
    (by
      intro fo hfo
      rcases List.mem_cons.mp hfo with rfl | hfo'
      · exact ⟨_, rfl, by decide⟩
      · rcases List.mem_cons.mp hfo' with rfl | h
        · exact ⟨_, rfl, by decide⟩
        · cases h)

end GenOCR
